import Mathlib

/-!
Verification of the DMT4827 volume-control firmware core against its
natural-language specification.

The development shallowly embeds the two load-bearing parts of the source:

* the DGUS serial frame decoder (`DMT_Display::handleIncomingData` in
  `src/lib/DMT_Display/DMT_Display.cpp`, duplicated as `handleDMTData` in
  `src/src/main.cpp` and the historical main variants) together with the
  frame encoder `DMT_Display::writeVP`;
* the volume/gain value mapper (`Mezzo_Controller::calculateGainFromVPData`,
  `DMT_Display::calculateHighByteFromGain`, `mapVPToVolume`, and the inline
  gain computations of `sendVolumeToZone` / `sendVolumeToZoneWithVPData`).

Machine integers are modelled as `Nat` / `Int` with explicit `% 256` or
`% 65536` where 8/16-bit overflow matters.  The C `float` arithmetic of the
value mapper is idealised as exact real arithmetic: every mapper claim under
scrutiny is about the structure of the formulas (which byte is used, which
exponent, which branch fires), and those are faithfully captured over `ℝ`.
-/

namespace DMT

/-- State of the serial frame decoder: the receive buffer collected so far
(`_dmtBuffer[0.._bufferIndex)`) and the `_frameStarted` flag.  The C++
`_bufferIndex` is the length of `buf`. -/
structure DecoderState where
  buf : List Nat
  frameStarted : Bool
deriving DecidableEq, Repr

/-- Initial decoder state: empty buffer, no frame started
(constructor of `DMT_Display`). -/
def initState : DecoderState := ⟨[], false⟩

/-- One iteration of the `while (_serial->available())` loop of
`DMT_Display::handleIncomingData` (DMT_Display.cpp lines 180-225, identical
in `handleDMTData` of main.cpp lines 654-706): consume one incoming byte,
return the next state and the frame passed to `processDMTFrame`, if any.
The length check is the 8-bit computation
`uint8_t frameLength = _dmtBuffer[2] + 3`, hence the `% 256`. -/
def feed (s : DecoderState) (b : Nat) : DecoderState × Option (List Nat) :=
  if s.frameStarted = false then
    if s.buf.length = 0 ∧ b = 0x5A then
      (⟨[b], false⟩, none)
    else if s.buf.length = 1 ∧ b = 0xA5 then
      (⟨s.buf ++ [b], true⟩, none)
    else
      (⟨[], false⟩, none)
  else
    if s.buf.length < 64 then
      let buf := s.buf ++ [b]
      if buf.length = 3 ∧ 64 < (buf.getD 2 0 + 3) % 256 then
        (⟨[], false⟩, none)
      else if 3 ≤ buf.length ∧ (buf.getD 2 0 + 3) % 256 ≤ buf.length then
        (⟨[], false⟩, some buf)
      else
        (⟨buf, true⟩, none)
    else
      (⟨[], false⟩, none)

/-- State component of `feed`. -/
def stepState (s : DecoderState) (b : Nat) : DecoderState := (feed s b).1

/-- Decoder state after feeding a whole byte list, one byte at a time. -/
def runState (s : DecoderState) (bs : List Nat) : DecoderState :=
  bs.foldl stepState s

/-- Feed a whole byte list one byte at a time, collecting every frame the
decoder hands to `processDMTFrame`, in order. -/
def feedAll (s : DecoderState) (bs : List Nat) : DecoderState × List (List Nat) :=
  bs.foldl (fun acc b =>
    let r := feed acc.1 b
    (r.1, acc.2 ++ r.2.toList)) (s, [])

end DMT


namespace DMT

/-- The packed VariableValue-to-gain conversion
`Mezzo_Controller::calculateGainFromVPData` (DMT_Display.cpp concatenation,
lines 579-596): extract `dec_volume = vpData & 0x00FF` (the LOW byte), then
`gain = 0` for `dec_volume <= 0`, `gain = 1` for `dec_volume >= 100`, else
`gain = pow(2, dec_volume/10)/1000` capped at `1.0`.
Float arithmetic idealised over `ℝ`. -/
noncomputable def calculateGainFromVPData (vpData : ℕ) : ℝ :=
  if vpData % 256 = 0 then 0
  else if 100 ≤ vpData % 256 then 1
  else min ((2 : ℝ) ^ (((vpData % 256 : ℕ) : ℝ) / 10) / 1000) 1

/-- The inline gain computation of `sendVolumeToZoneWithVPData`
(main.cpp lines 510-525): byte-for-byte the same algorithm as
`calculateGainFromVPData`, starting from `dec_volume = vpData & 0x00FF`. -/
noncomputable def mainGainFromVPData (vpData : ℕ) : ℝ :=
  if vpData % 256 = 0 then 0
  else if 100 ≤ vpData % 256 then 1
  else min ((2 : ℝ) ^ (((vpData % 256 : ℕ) : ℝ) / 10) / 1000) 1

/-- Reference function for the amended claim C1 (written from the amended
spec wording, to be compared with the source functions): the 0-100 level is
the LOW byte of the VariableValue, and for levels strictly between 0 and 100
the exponential law `2^(level/10)/1000` applies with no cap needed. -/
noncomputable def packedGainLowByteSpec (v : ℕ) : ℝ :=
  if v % 256 = 0 then 0
  else if 100 ≤ v % 256 then 1
  else (2 : ℝ) ^ (((v % 256 : ℕ) : ℝ) / 10) / 1000

/-- The raw-linear VariableValue-to-gain conversion inlined in
`sendVolumeToZoneWithVPData` (src/unnamed/part_000 lines 1343-1355):
`gain = 0` for `vpData <= 0x100`, `gain = 1` for `vpData >= 0x164`, else
`gain = pow(2, vpData*10/356)/1000` capped at `1.0`.  The same formula is
inlined in `sendVolumeToZone` (main.cpp lines 379-394) applied to
`map(volume, 0, 100, 0x100, 0x164)`. -/
noncomputable def rawLinearGain (vpData : ℕ) : ℝ :=
  if vpData ≤ 0x100 then 0
  else if 0x164 ≤ vpData then 1
  else min ((2 : ℝ) ^ (((vpData : ℕ) : ℝ) * 10 / 356) / 1000) 1

/-- The gain-to-level inverse `DMT_Display::calculateHighByteFromGain`
(DMT_Display.cpp lines 154-166): `0` for `gain <= 0`, `100` for
`gain >= 1`, else `round(clamp(10 * log2(gain * 1000), 0, 100))`. -/
noncomputable def calculateHighByteFromGain (gain : ℝ) : ℕ :=
  if gain ≤ 0 then 0
  else if 1 ≤ gain then 100
  else (round (min (max (10 * Real.logb 2 (gain * 1000)) 0) 100)).toNat

/-- The Arduino `map` helper used by the source:
`(x - in_min) * (out_max - out_min) / (in_max - in_min) + out_min`
in `long` arithmetic. -/
def arduinoMap (x inMin inMax outMin outMax : ℤ) : ℤ :=
  (x - inMin) * (outMax - outMin) / (inMax - inMin) + outMin

/-- The raw-linear VariableValue-to-level mapping `DMT_Display::mapVPToVolume`
(DMT_Display.cpp lines 169-177): clamp `vpData` into `[0x100, 0x164]`, then
`map(vpData, 0x100, 0x164, 0, 100)`. -/
def mapVPToVolume (vpData : ℕ) : ℤ :=
  let v1 : ℕ := if vpData < 0x100 then 0x100 else vpData
  let v2 : ℕ := if 0x164 < v1 then 0x164 else v1
  arduinoMap (v2 : ℤ) 0x100 0x164 0 100

/-- The early-return variant of `mapVPToVolume` (src/unnamed/part_001
lines 144-149): below-window inputs return `VOLUME_MIN`, above-window inputs
return `VOLUME_MAX`, in-window inputs go through `map`. -/
def mapVPToVolumeEarly (vpData : ℕ) : ℤ :=
  if vpData < 0x100 then 0
  else if 0x164 < vpData then 100
  else arduinoMap (vpData : ℤ) 0x100 0x164 0 100

/-- The clamp at the head of the percentage overload of `DMT_Display::writeVP`
(DMT_Display.cpp lines 56-57): `if (volume < 0) volume = 0; if (volume > 100)
volume = 100;`. -/
def clampVolume (volume : ℤ) : ℤ :=
  if volume < 0 then 0 else if 100 < volume then 100 else volume

/-- The percentage overload of `DMT_Display::writeVP` (DMT_Display.cpp lines
55-70): clamp the `int` volume into `[0,100]`, pack it as
`vpData = volume << 8` (a `uint16_t`), and emit the 8-byte write-variable
frame.  The `uint8_t` casts of the address and data bytes are the `% 256`. -/
def writeVPVolume (vpAddress : ℕ) (volume : ℤ) : List ℕ :=
  [0x5A, 0xA5, 0x05, 0x82, vpAddress / 256 % 256, vpAddress % 256,
    (clampVolume volume).toNat * 256 % 65536 / 256 % 256,
    (clampVolume volume).toNat * 256 % 65536 % 256]

end DMT

namespace DMT

/-- Comparison of `2^x` against `1000` reduced to a natural-number power
comparison: if `x ≤ a/b` and `2^a < 1000^b` then `2^x < 1000`. -/
lemma two_rpow_lt_thousand {x : ℝ} {a b : ℕ} (hb : 0 < b)
    (hx : x ≤ (a : ℝ) / (b : ℝ)) (hab : (2 : ℕ) ^ a < 1000 ^ b) :
    (2 : ℝ) ^ x < 1000 := by
  have hbR : (0 : ℝ) < (b : ℝ) := by exact_mod_cast hb
  have h1 : (2 : ℝ) ^ x ≤ (2 : ℝ) ^ ((a : ℝ) / (b : ℝ)) :=
    Real.rpow_le_rpow_of_exponent_le (by norm_num) hx
  have h2 : ((2 : ℝ) ^ ((a : ℝ) / (b : ℝ))) ^ (b : ℕ) = (2 : ℝ) ^ (a : ℕ) := by
    rw [← Real.rpow_natCast ((2 : ℝ) ^ ((a : ℝ) / (b : ℝ))) b,
      ← Real.rpow_mul (by norm_num), div_mul_cancel₀ _ (ne_of_gt hbR),
      Real.rpow_natCast]
  have h3 : ((2 : ℝ) ^ ((a : ℝ) / (b : ℝ))) ^ (b : ℕ) < (1000 : ℝ) ^ (b : ℕ) := by
    rw [h2]
    exact_mod_cast hab
  have h4 : (2 : ℝ) ^ ((a : ℝ) / (b : ℝ)) < 1000 :=
    lt_of_pow_lt_pow_left₀ b (by norm_num) h3
  exact lt_of_le_of_lt h1 h4

/-- Lower counterpart of `two_rpow_lt_thousand`: if `a/b ≤ x` and
`1000^b ≤ 2^a` then `1000 ≤ 2^x`. -/
lemma thousand_le_two_rpow {x : ℝ} {a b : ℕ} (hb : 0 < b)
    (hx : (a : ℝ) / (b : ℝ) ≤ x) (hab : (1000 : ℕ) ^ b ≤ 2 ^ a) :
    (1000 : ℝ) ≤ (2 : ℝ) ^ x := by
  have hbR : (0 : ℝ) < (b : ℝ) := by exact_mod_cast hb
  have h1 : (2 : ℝ) ^ ((a : ℝ) / (b : ℝ)) ≤ (2 : ℝ) ^ x :=
    Real.rpow_le_rpow_of_exponent_le (by norm_num) hx
  have h2 : ((2 : ℝ) ^ ((a : ℝ) / (b : ℝ))) ^ (b : ℕ) = (2 : ℝ) ^ (a : ℕ) := by
    rw [← Real.rpow_natCast ((2 : ℝ) ^ ((a : ℝ) / (b : ℝ))) b,
      ← Real.rpow_mul (by norm_num), div_mul_cancel₀ _ (ne_of_gt hbR),
      Real.rpow_natCast]
  have h3 : (1000 : ℝ) ^ (b : ℕ) ≤ ((2 : ℝ) ^ ((a : ℝ) / (b : ℝ))) ^ (b : ℕ) := by
    rw [h2]
    exact_mod_cast hab
  have h4 : (1000 : ℝ) ≤ (2 : ℝ) ^ ((a : ℝ) / (b : ℝ)) :=
    le_of_pow_le_pow_left₀ (by omega) (le_of_lt (Real.rpow_pos_of_pos (by norm_num) _)) h3
  exact le_trans h4 h1

/-- For levels up to 99 the exponential law stays strictly below 1, so the
`if (gain > 1.0f) gain = 1.0f` cap in the packed decoder never fires. -/
lemma packedGain_cap_vacuous {d : ℕ} (hd : d ≤ 99) :
    (2 : ℝ) ^ ((d : ℝ) / 10) / 1000 < 1 := by
  have hx : ((d : ℝ) / 10) ≤ (99 : ℝ) / 10 := by
    have : (d : ℝ) ≤ 99 := by exact_mod_cast hd
    linarith
  have h1 : (2 : ℝ) ^ ((d : ℝ) / 10) < 1000 := by
    refine two_rpow_lt_thousand (a := 99) (b := 10) (by norm_num) ?_ (by norm_num)
    push_cast
    exact hx
  linarith

end DMT

namespace DMT

/-- The packed decoder computes exactly the exponential law of the LOW byte:
the cap inside the last branch never fires (`packedGain_cap_vacuous`). -/
lemma calculateGain_eq_lowByteSpec (v : ℕ) :
    calculateGainFromVPData v = packedGainLowByteSpec v := by
  unfold calculateGainFromVPData packedGainLowByteSpec
  by_cases h0 : v % 256 = 0
  · simp [h0]
  · by_cases h100 : 100 ≤ v % 256
    · simp [h0, h100]
    · have hcap := packedGain_cap_vacuous (d := v % 256) (by omega)
      simp [h0, h100, min_eq_left hcap.le]

/-- Round trip of a level through the exponential law and its logarithmic
inverse is the identity on `[0, 100]` (exact real arithmetic). -/
lemma level_roundTrip_eq (d : ℕ) (hd : d ≤ 100) :
    calculateHighByteFromGain (calculateGainFromVPData d) = d := by
  have hmod : d % 256 = d := Nat.mod_eq_of_lt (by omega)
  rcases Nat.eq_zero_or_pos d with h0 | hpos
  · subst h0
    simp [calculateGainFromVPData, calculateHighByteFromGain]
  · by_cases h100 : d = 100
    · subst h100
      have hg : calculateGainFromVPData 100 = 1 := by
        norm_num [calculateGainFromVPData]
      rw [hg]
      norm_num [calculateHighByteFromGain]
    · have hd99 : d ≤ 99 := by omega
      have hne : ¬ (d % 256 = 0) := by omega
      have hlt100 : ¬ (100 ≤ d % 256) := by omega
      have hcap := packedGain_cap_vacuous hd99
      have hg : calculateGainFromVPData d = (2 : ℝ) ^ ((d : ℝ) / 10) / 1000 := by
        have hne2 : ¬ (d = 0) := by omega
        have hlt2 : ¬ (100 ≤ d) := by omega
        simp [calculateGainFromVPData, hmod, hne2, hlt2, min_eq_left hcap.le]
      rw [hg]
      have hpos2 : (0 : ℝ) < (2 : ℝ) ^ ((d : ℝ) / 10) / 1000 :=
        div_pos (Real.rpow_pos_of_pos (by norm_num) _) (by norm_num)
      unfold calculateHighByteFromGain
      rw [if_neg (by linarith), if_neg (by linarith)]
      have harg : (2 : ℝ) ^ ((d : ℝ) / 10) / 1000 * 1000 = (2 : ℝ) ^ ((d : ℝ) / 10) := by
        field_simp
      rw [harg, Real.logb_rpow (by norm_num) (by norm_num)]
      have h10 : 10 * ((d : ℝ) / 10) = (d : ℝ) := by ring
      rw [h10]
      have hmax : max (d : ℝ) 0 = (d : ℝ) := max_eq_left (by positivity)
      have hmin : min (d : ℝ) 100 = (d : ℝ) :=
        min_eq_left (by exact_mod_cast hd)
      rw [hmax, hmin, round_natCast]
      simp

end DMT

namespace DMT

/-- Claim C1, counterexample: at VariableValue `0x3200` the packed decoder
returns `0`, whereas the exponential law applied to the high byte
`0x3200 >> 8 = 50` gives `2^5/1000 = 0.032`.  The code reads the LOW byte,
not the high byte. -/
theorem packedGain_highByte_counterexample :
    calculateGainFromVPData 0x3200 = 0
    ∧ (2 : ℝ) ^ (((0x3200 / 256 % 256 : ℕ) : ℝ) / 10) / 1000 = 32 / 1000
    ∧ (0 : ℝ) ≠ 32 / 1000 := by
  refine ⟨by norm_num [calculateGainFromVPData], ?_, by norm_num⟩
  have h1 : ((0x3200 / 256 % 256 : ℕ) : ℝ) = 50 := by norm_num
  rw [h1, show (50 : ℝ) / 10 = ((5 : ℕ) : ℝ) by norm_num, Real.rpow_natCast]
  norm_num

/-- Claim C1, amended: for every 16-bit VariableValue `v`, both packed
decoders (`calculateGainFromVPData` and the inline computation of
`sendVolumeToZoneWithVPData` in main.cpp) obtain the 0-100 level from the
LOW byte of `v` (`v & 0xFF`), ignoring the high byte, before applying the
exponential law `gain = 2^(level/10)/1000`. -/
theorem packedGain_usesLowByte (v : ℕ) :
    calculateGainFromVPData v = packedGainLowByteSpec v
    ∧ mainGainFromVPData v = packedGainLowByteSpec v :=
  ⟨calculateGain_eq_lowByteSpec v, calculateGain_eq_lowByteSpec v⟩

/-- Claim C2, counterexample: at VariableValue `0x10A` the raw-linear
conversion returns `min(2^(2660/356)/1000, 1) ≈ 0.178`, not the claimed
`2^(((0x10A-0x100)*100/100)/10)/1000 = 2^1/1000 = 0.002`: the code
exponentiates `vpData*10/356` on the raw value instead of linearly
remapping the window `[0x100, 0x164]` to `[0, 100]` first. -/
theorem rawLinearGain_remap_counterexample :
    rawLinearGain 0x10A
      ≠ (2 : ℝ) ^ ((((0x10A - 0x100) * 100 / (0x164 - 0x100) : ℕ) : ℝ) / 10) / 1000 := by
  have hclaim : ((((0x10A - 0x100) * 100 / (0x164 - 0x100) : ℕ) : ℝ) / 10) = 1 := by
    norm_num
  rw [hclaim, Real.rpow_one]
  have hval : rawLinearGain 0x10A = min ((2 : ℝ) ^ ((266 : ℝ) * 10 / 356) / 1000) 1 := by
    norm_num [rawLinearGain]
  rw [hval]
  have h1 : (2 : ℝ) ^ (1 : ℝ) < (2 : ℝ) ^ ((266 : ℝ) * 10 / 356) :=
    Real.rpow_lt_rpow_of_exponent_lt (by norm_num) (by norm_num)
  rw [Real.rpow_one] at h1
  have h2 : (2 : ℝ) / 1000 < min ((2 : ℝ) ^ ((266 : ℝ) * 10 / 356) / 1000) 1 := by
    refine lt_min (by linarith) (by norm_num)
  exact ne_of_gt h2

/-- Claim C2, amended: for VariableValues strictly inside the window, the
raw-linear conversion applies the exponential law with exponent
`vpData*10/356` on the raw value; the result is uncapped up to `v = 354`,
and at `v = 355` the `1.0` cap fires. -/
theorem rawLinearGain_formula :
    (∀ v : ℕ, 0x100 < v → v ≤ 354 →
      rawLinearGain v = (2 : ℝ) ^ ((v : ℝ) * 10 / 356) / 1000)
    ∧ rawLinearGain 355 = 1 := by
  constructor
  · intro v h1 h2
    have hb1 : ¬ (v ≤ 0x100) := by omega
    have hb2 : ¬ (0x164 ≤ v) := by omega
    have hlt : (2 : ℝ) ^ ((v : ℝ) * 10 / 356) < 1000 := by
      refine two_rpow_lt_thousand (a := 3540) (b := 356) (by norm_num) ?_ (by norm_num)
      have hv : (v : ℝ) ≤ 354 := by exact_mod_cast h2
      push_cast
      linarith
    have hcap : (2 : ℝ) ^ ((v : ℝ) * 10 / 356) / 1000 < 1 := by linarith
    simp [rawLinearGain, hb1, hb2, min_eq_left hcap.le]
  · have hge : (1000 : ℝ) ≤ (2 : ℝ) ^ (((355 : ℕ) : ℝ) * 10 / 356) :=
      thousand_le_two_rpow (a := 3550) (b := 356) (by norm_num) (by norm_num) (by norm_num)
    unfold rawLinearGain
    rw [if_neg (by norm_num), if_neg (by norm_num)]
    refine min_eq_right ?_
    rw [le_div_iff₀ (by norm_num)]
    linarith

/-- Claim C2 witness: the amended formula instantiated at `v = 300`. -/
theorem rawLinearGain_formula_witness :
    rawLinearGain 300 = (2 : ℝ) ^ ((300 : ℝ) * 10 / 356) / 1000 := by
  have h := rawLinearGain_formula.1 300 (by norm_num) (by norm_num)
  rw [h]
  norm_num

end DMT

namespace DMT

/-- Claim C3, counterexample: feeding
`[0x5A,0xA5,0x04,0x83,0x10,0x00,0x01,0x64]` byte-by-byte emits exactly one
frame, but that frame is the 7-byte `[0x5A,0xA5,0x04,0x83,0x10,0x00,0x01]`
(the length byte `0x04` counts the command byte, so the frame completes
after three payload bytes and the trailing `0x64` is discarded), not a frame
with payload `[0x10,0x00,0x01,0x64]`. -/
theorem frameDecode_canonical_counterexample :
    (feedAll initState [0x5A, 0xA5, 0x04, 0x83, 0x10, 0x00, 0x01, 0x64]).2
      = [[0x5A, 0xA5, 0x04, 0x83, 0x10, 0x00, 0x01]]
    ∧ ¬ (([0x5A, 0xA5, 0x04, 0x83, 0x10, 0x00, 0x01] : List ℕ).drop 4
          = [0x10, 0x00, 0x01, 0x64]) := by
  decide

/-- Claim C3, amended: feeding
`[0x5A,0xA5,0x04,0x83,0x10,0x00,0x01,0x64]` one byte at a time emits exactly
one completed frame, with command byte `0x83` and the three payload bytes
`[0x10,0x00,0x01]` after the command; the final `0x64` is not part of the
frame. -/
theorem frameDecode_canonical :
    (feedAll initState [0x5A, 0xA5, 0x04, 0x83, 0x10, 0x00, 0x01, 0x64]).2
      = [[0x5A, 0xA5, 0x04, 0x83, 0x10, 0x00, 0x01]]
    ∧ ([0x5A, 0xA5, 0x04, 0x83, 0x10, 0x00, 0x01] : List ℕ).getD 3 0 = 0x83
    ∧ ([0x5A, 0xA5, 0x04, 0x83, 0x10, 0x00, 0x01] : List ℕ).drop 4
        = [0x10, 0x00, 0x01] := by
  decide

/-- Claim C4: converting a level in `[0,100]` to gain and back through the
logarithmic inverse returns a level within 1 unit of the original (in the
exact-real model the round trip is the identity), and level `0` round-trips
to exactly `0` through the zero special case. -/
theorem level_gain_roundTrip :
    (∀ level : ℕ, level ≤ 100 →
      |(calculateHighByteFromGain (calculateGainFromVPData level) : ℤ) - (level : ℤ)| ≤ 1)
    ∧ calculateHighByteFromGain (calculateGainFromVPData 0) = 0 := by
  constructor
  · intro level hl
    rw [level_roundTrip_eq level hl]
    simp
  · rw [level_roundTrip_eq 0 (by norm_num)]

/-- Claim C4 witness: the round trip instantiated at level 50. -/
theorem level_gain_roundTrip_witness :
    |(calculateHighByteFromGain (calculateGainFromVPData 50) : ℤ) - (50 : ℤ)| ≤ 1 :=
  level_gain_roundTrip.1 50 (by norm_num)

/-- Claim C5: the level-to-gain conversions return exactly `0` at level 0
and exactly `1` at level 100: the packed decoder on any VariableValue whose
level byte is `0` resp. `100`, and the raw-linear conversion on any
VariableValue at or below `0x100` resp. at or above `0x164`. -/
theorem gainBoundary_values :
    (∀ v : ℕ, v % 256 = 0 → calculateGainFromVPData v = 0)
    ∧ (∀ v : ℕ, v % 256 = 100 → calculateGainFromVPData v = 1)
    ∧ (∀ v : ℕ, v ≤ 0x100 → rawLinearGain v = 0)
    ∧ (∀ v : ℕ, 0x164 ≤ v → rawLinearGain v = 1) := by
  refine ⟨fun v h => by simp [calculateGainFromVPData, h],
          fun v h => by simp [calculateGainFromVPData, h],
          fun v h => by simp [rawLinearGain, h],
          fun v h => ?_⟩
  have h1 : ¬ (v ≤ 0x100) := by omega
  simp [rawLinearGain, h1, h]

/-- Claim C5 witness: boundary values at concrete inputs
(`512 & 0xFF = 0`, `868 & 0xFF = 100`). -/
theorem gainBoundary_values_witness :
    calculateGainFromVPData 512 = 0 ∧ calculateGainFromVPData 868 = 1
    ∧ rawLinearGain 100 = 0 ∧ rawLinearGain 400 = 1 :=
  ⟨gainBoundary_values.1 512 (by norm_num),
   gainBoundary_values.2.1 868 (by norm_num),
   gainBoundary_values.2.2.1 100 (by norm_num),
   gainBoundary_values.2.2.2 400 (by norm_num)⟩

/-- Claim C6: the raw-linear VariableValue-to-level mapping sends `0x100`
to 0 and `0x164` to 100, and clamps below-window inputs to 0 and
above-window inputs to 100 — in both source variants. -/
theorem mapVPToVolume_boundary :
    mapVPToVolume 0x100 = 0 ∧ mapVPToVolume 0x164 = 100
    ∧ (∀ v : ℕ, v < 0x100 → mapVPToVolume v = 0)
    ∧ (∀ v : ℕ, 0x164 < v → mapVPToVolume v = 100)
    ∧ mapVPToVolumeEarly 0x100 = 0 ∧ mapVPToVolumeEarly 0x164 = 100
    ∧ (∀ v : ℕ, v < 0x100 → mapVPToVolumeEarly v = 0)
    ∧ (∀ v : ℕ, 0x164 < v → mapVPToVolumeEarly v = 100) := by
  refine ⟨by norm_num [mapVPToVolume, arduinoMap],
          by norm_num [mapVPToVolume, arduinoMap],
          fun v hv => ?_, fun v hv => ?_,
          by norm_num [mapVPToVolumeEarly, arduinoMap],
          by norm_num [mapVPToVolumeEarly, arduinoMap],
          fun v hv => ?_, fun v hv => ?_⟩
  · norm_num [mapVPToVolume, arduinoMap, hv]
  · have h1 : ¬ (v < 0x100) := by omega
    norm_num [mapVPToVolume, arduinoMap, h1, hv]
  · norm_num [mapVPToVolumeEarly, hv]
  · have h1 : ¬ (v < 0x100) := by omega
    norm_num [mapVPToVolumeEarly, h1, hv]

/-- Claim C6 witness: the clamping conjuncts instantiated at `v = 7` and
`v = 999`. -/
theorem mapVPToVolume_boundary_witness :
    mapVPToVolume 7 = 0 ∧ mapVPToVolume 999 = 100
    ∧ mapVPToVolumeEarly 7 = 0 ∧ mapVPToVolumeEarly 999 = 100 :=
  ⟨mapVPToVolume_boundary.2.2.1 7 (by norm_num),
   mapVPToVolume_boundary.2.2.2.1 999 (by norm_num),
   mapVPToVolume_boundary.2.2.2.2.2.2.1 7 (by norm_num),
   mapVPToVolume_boundary.2.2.2.2.2.2.2 999 (by norm_num)⟩

/-- Claim C7: for every `int` volume and 16-bit address, the percentage
write-variable encoder emits exactly
`[0x5A, 0xA5, 0x05, 0x82, addrHigh, addrLow, clamp(volume,0,100), 0x00]`:
the volume is clamped into `[0,100]`, never rejected, and packed into the
high byte of the 16-bit data field with low byte zero. -/
theorem writeVP_volume_encoding (volume : ℤ) (addr : ℕ) (h : addr < 65536) :
    writeVPVolume addr volume =
      [0x5A, 0xA5, 0x05, 0x82, addr / 256, addr % 256,
        (min (max volume 0) 100).toNat, 0x00] := by
  have hclamp : clampVolume volume = min (max volume 0) 100 := by
    unfold clampVolume
    split_ifs <;> omega
  have h1 : addr / 256 % 256 = addr / 256 := by omega
  have hc : (min (max volume 0) 100).toNat ≤ 100 := by omega
  have h2 : (min (max volume 0) 100).toNat * 256 % 65536
      = (min (max volume 0) 100).toNat * 256 := by omega
  have h3 : (min (max volume 0) 100).toNat * 256 / 256 % 256
      = (min (max volume 0) 100).toNat := by omega
  have h4 : (min (max volume 0) 100).toNat * 256 % 256 = 0 := by omega
  unfold writeVPVolume
  rw [hclamp, h1, h2, h3, h4]

/-- Claim C7 witness: the encoder at address `0x1100` with out-of-range
volume 150, which is clamped to 100. -/
theorem writeVP_volume_encoding_witness :
    writeVPVolume 0x1100 150 =
      [0x5A, 0xA5, 0x05, 0x82, 0x1100 / 256, 0x1100 % 256,
        ((min (max (150 : ℤ) 0) 100).toNat), 0x00] :=
  writeVP_volume_encoding 150 0x1100 (by norm_num)

/-- Claim C8: evaluation at the failing input.  With length byte `0xFD` the
mathematical expected frame length is `0xFD + 3 = 256 > 64`, so the claim
(and the code comment `Frame too long, reset`) demands a silent discard; but
the 8-bit computation `uint8_t frameLength = buffer[2] + 3` wraps to `0`, so
the decoder instead emits the 3-byte runt `[0x5A, 0xA5, 0xFD]` as a
completed frame (and then resets). -/
theorem frameTooLong_wraparound :
    64 < 0xFD + 3
    ∧ (feedAll initState [0x5A, 0xA5, 0xFD]).2 = [[0x5A, 0xA5, 0xFD]]
    ∧ runState initState [0x5A, 0xA5, 0xFD] = initState := by
  decide

/-- Claim C10: after `0x5A` followed by any byte other than `0xA5`, the
decoder discards both bytes and returns to the empty idle state, so the
second byte is never reconsidered as a header byte; in particular
`0x5A, 0x5A, 0xA5` followed by a well-formed frame body emits no frame. -/
theorem headerResync_loss :
    (∀ b : ℕ, b ≠ 0xA5 →
      feed (feed initState 0x5A).1 b = (⟨[], false⟩, none))
    ∧ (feedAll initState [0x5A, 0x5A, 0xA5, 0x04, 0x83, 0x10, 0x00, 0x01, 0x64]).2
        = [] := by
  constructor
  · intro b hb
    have h1 : (feed initState 0x5A).1 = ⟨[0x5A], false⟩ := rfl
    rw [h1]
    simp [feed, hb]
  · decide

/-- Claim C10 witness: the resynchronization loss at the concrete second
byte `0x00`. -/
theorem headerResync_loss_witness :
    feed (feed initState 0x5A).1 0 = (⟨[], false⟩, none) :=
  headerResync_loss.1 0 (by norm_num)

end DMT

namespace DMT

/-- Reachability invariant of the decoder: while hunting for the header the
buffer holds at most one byte; while collecting, the buffer holds between 2
and 63 bytes, and once the length byte is in, the 8-bit expected frame
length is at most the 64-byte capacity and strictly exceeds the bytes
buffered so far. -/
def DecoderInv : DecoderState → Prop
  | ⟨buf, false⟩ => buf.length ≤ 1
  | ⟨buf, true⟩ => 2 ≤ buf.length ∧ buf.length ≤ 63 ∧
      (3 ≤ buf.length →
        (buf.getD 2 0 + 3) % 256 ≤ 64 ∧ buf.length < (buf.getD 2 0 + 3) % 256)

lemma decoderInv_init : DecoderInv initState := by
  simp [DecoderInv, initState]

lemma decoderInv_step (s : DecoderState) (b : ℕ) (h : DecoderInv s) :
    DecoderInv (stepState s b) := by
  rcases s with ⟨buf, fs⟩
  cases fs with
  | false =>
    simp only [DecoderInv] at h
    simp only [stepState, feed]
    rw [if_pos (by trivial)]
    split_ifs with h1 h2
    · simp [DecoderInv]
    · simp [DecoderInv, h2.1]
    · simp [DecoderInv]
  | true =>
    obtain ⟨h2le, h63, hfl⟩ : 2 ≤ buf.length ∧ buf.length ≤ 63 ∧
        (3 ≤ buf.length →
          (buf.getD 2 0 + 3) % 256 ≤ 64 ∧ buf.length < (buf.getD 2 0 + 3) % 256) := h
    simp only [stepState, feed]
    rw [if_neg (by simp), if_pos (by show buf.length < 64; omega)]
    split_ifs with hc1 hc2
    · simp [DecoderInv]
    · simp [DecoderInv]
    · have hlen : (buf ++ [b]).length = buf.length + 1 := by simp
      have hge3 : 3 ≤ (buf ++ [b]).length := by omega
      have hgt : (buf ++ [b]).length < ((buf ++ [b]).getD 2 0 + 3) % 256 := by
        rcases Nat.lt_or_ge ((buf ++ [b]).length) (((buf ++ [b]).getD 2 0 + 3) % 256) with hx | hx
        · exact hx
        · exact absurd ⟨hge3, hx⟩ hc2
      have hle64 : ((buf ++ [b]).getD 2 0 + 3) % 256 ≤ 64 := by
        rcases Nat.eq_or_lt_of_le h2le with heq | hlt3
        · by_contra hgt64
          exact hc1 ⟨by omega, by omega⟩
        · rw [List.getD_append _ _ _ _ (by omega)]
          rw [List.getD_append _ _ _ _ (by omega)] at hgt
          exact (hfl (by omega)).1
      simp only [DecoderInv]
      exact ⟨by omega, by omega, fun _ => ⟨hle64, hgt⟩⟩

lemma decoderInv_run (bs : List ℕ) (s : DecoderState) (h : DecoderInv s) :
    DecoderInv (runState s bs) := by
  induction bs generalizing s with
  | nil => simpa [runState] using h
  | cons a t ih =>
    rw [runState, List.foldl_cons]
    exact ih _ (decoderInv_step s a h)

/-- Claim C9: decoding is buffer-safe for arbitrary input byte sequences:
from the initial state, the buffer index never exceeds 63, so every write
into the 64-byte receive buffer happens at an index in `[0,63]` and the
overflow branch (`_bufferIndex >= DMT_BUFFER_SIZE`) is unreachable. -/
theorem decoder_bufferSafe (bs : List ℕ) :
    (runState initState bs).buf.length ≤ 63 := by
  have h := decoderInv_run bs initState decoderInv_init
  rcases hr : runState initState bs with ⟨buf, fs⟩
  rw [hr] at h
  cases fs with
  | false =>
    simp only [DecoderInv] at h
    simpa using by omega
  | true =>
    simpa using h.2.1

end DMT
